import Mathlib

/-!
Shallow embedding of `src/remote_app/ocr_service/mineru_processor.py`
(class `MinerUProcessor` and the module-level singleton accessor), used to
verify the natural-language specification of the MinerU OCR client.

Network effects are modelled by an explicit environment (`RunEnv`) that
records the response each HTTP interaction would produce; every embedded
operation additionally returns the list of HTTP requests it issued, so that
properties about headers and about the absence of network calls are statable.
Wall-clock time in the polling loop is modelled as a natural-number clock:
each poll attempt consumes the duration of its HTTP request plus (on
non-terminal outcomes) one poll interval of sleep.
-/

/-- An HTTP request as issued by the client: method, URL and header list.
Request bodies are not modelled (no claim concerns them). -/
structure HttpRequest where
  method : String
  url : String
  headers : List (String × String)
deriving Repr, DecidableEq

/-- Embeds the `MinerUProcessor` instance state set in `__init__`:
`api_key`, `base_url` (already right-stripped of slashes), `timeout` and
`poll_interval` in seconds. -/
structure MinerUProcessor where
  api_key : String
  base_url : String
  timeout : Nat
  poll_interval : Nat
deriving Repr, DecidableEq

/-- Environment values read by `__init__` (`os.getenv` results). -/
structure SysEnv where
  mineru_api_key : String
  mineru_timeout : Nat
  mineru_poll_interval : Nat
deriving Repr, DecidableEq

/-- Embeds base_url.rstrip of the slash character. -/
def rstripSlash (s : String) : String :=
  String.mk (s.data.reverse.dropWhile (fun c => c = '/')).reverse

/-- Embeds the constructor of `MinerUProcessor`: the api_key argument or,
when it is falsy (None or the empty string), the MINERU_API_KEY environment
value; the base URL right-stripped of slashes; and the timeout and
poll-interval settings. -/
def MinerUProcessor.init (sys : SysEnv) (api_key : Option String := none)
    (base_url : String := "https://mineru.net") : MinerUProcessor :=
  { api_key :=
      match api_key with
      | some k => if k = "" then sys.mineru_api_key else k
      | none => sys.mineru_api_key
    base_url := rstripSlash base_url
    timeout := sys.mineru_timeout
    poll_interval := sys.mineru_poll_interval }

/-- Embeds the private method returning the JSON-API header set. -/
def getHeaders (p : MinerUProcessor) : List (String × String) :=
  [("Authorization", "Bearer " ++ p.api_key), ("Content-Type", "application/json")]

/-- Python truthiness test `not x` for an optional string: `None` and `""`
are falsy. -/
def optFalsy : Option String → Bool
  | none => true
  | some s => s == ""

/-- The `data` object of a poll response (`task_data` in the source):
`state`, `err_msg`, `progress`, and the two result URLs. A missing JSON key
is `none`. -/
structure TaskData where
  state : Option String := none
  err_msg : Option String := none
  progress : Nat := 0
  full_zip_url : Option String := none
  md_url : Option String := none
deriving Repr, DecidableEq

/-- Outcome of one poll HTTP request: a `requests.RequestException`
(including a `raise_for_status` failure), or a JSON envelope
`{code, msg, data}`. -/
inductive PollResponse where
  | netError (msg : String)
  | reply (code : Int) (msg : String) (data : TaskData)
deriving Repr, DecidableEq

/-- One iteration of the environment of the poll loop: how long the HTTP request
took (`dur`, seconds) and what it produced. -/
structure PollEvent where
  dur : Nat
  resp : PollResponse
deriving Repr, DecidableEq

/-- Result of the poll loop, kept more informative than the source Optional return so that timeout can be distinguished: `exhausted` is a
model artifact meaning the supplied event trace ended before the loop did. -/
inductive PollResult where
  | success (d : TaskData)
  | failed
  | pollError
  | timeout
  | exhausted
deriving Repr, DecidableEq

/-- Collapses the poll result to what the source returns to the caller:
the data payload on success, None otherwise. -/
def pollResultToOption : PollResult → Option TaskData
  | .success d => some d
  | _ => none

/-- The GET request issued by one poll attempt
(`RESULT_ENDPOINT.format(task_id=task_id)` with `_get_headers`). -/
def pollRequest (p : MinerUProcessor) (task_id : String) : HttpRequest :=
  ⟨"GET", p.base_url ++ "/api/v4/extract/task/" ++ task_id, getHeaders p⟩

/-- Embeds the `while time.time() - start_time < self.timeout` loop of
`_poll_task`. `elapsed` is the wall-clock time since `start_time` observed
at the loop head. Besides the result of the loop, returns every issued request
paired with the elapsed time at which it was started. A network error or a
non-terminal state sleeps `poll_interval` and retries; `code != 0`, `done`
and `failed` return immediately. -/
def pollTaskGo (p : MinerUProcessor) (task_id : String) :
    Nat → List PollEvent → PollResult × List (Nat × HttpRequest)
  | elapsed, events =>
    if elapsed < p.timeout then
      match events with
      | [] => (.exhausted, [])
      | e :: rest =>
        let req := pollRequest p task_id
        match e.resp with
        | .netError _ =>
          let r := pollTaskGo p task_id (elapsed + e.dur + p.poll_interval) rest
          (r.1, (elapsed, req) :: r.2)
        | .reply code _ d =>
          if code ≠ 0 then (.pollError, [(elapsed, req)])
          else if d.state = some "done" then (.success d, [(elapsed, req)])
          else if d.state = some "failed" then (.failed, [(elapsed, req)])
          else
            let r := pollTaskGo p task_id (elapsed + e.dur + p.poll_interval) rest
            (r.1, (elapsed, req) :: r.2)
    else (.timeout, [])

/-- Embeds the polling method as seen by `process_pdf`: starts the clock at 0 and
collapses the informative result to `Optional[Dict]`. -/
def MinerUProcessor.pollTask (p : MinerUProcessor) (task_id : String)
    (events : List PollEvent) : Option TaskData × List (Nat × HttpRequest) :=
  let r := pollTaskGo p task_id 0 events
  (pollResultToOption r.1, r.2)

/-- A poll event whose observed status is neither `done` nor `failed`:
either a transient network error, or a well-formed (`code = 0`) reply with a
non-terminal state. -/
def nonTerminalEvent (e : PollEvent) : Bool :=
  match e.resp with
  | .netError _ => true
  | .reply code _ d =>
    code == 0 && d.state ≠ some "done" && d.state ≠ some "failed"

/-- The first files entry of the upload-slot response data: the presigned
write URL and the stable read URL. A missing JSON key is `none`. -/
structure UploadSlotInfo where
  presigned_url : Option String := none
  url : Option String := none
deriving Repr, DecidableEq

/-- Outcome of a JSON-API HTTP request: a `requests.RequestException`
(including `raise_for_status`), or a `{code, msg, data}` envelope with
payload of type `α`. -/
inductive ApiOutcome (α : Type) where
  | exn (msg : String)
  | resp (code : Int) (msg : String) (data : α)
deriving Repr, DecidableEq

deriving instance DecidableEq for Except

/-- Environment of one `process_pdf` run: the result of every external
interaction, in the order the code would perform it. `pageCount` is the
PyMuPDF page count (`Except.error` models a raised exception); `tmpDir` is
what `tempfile.mkdtemp()` would return; `slotResp` is the upload-slot
response (`none` payload = missing `files` key, defaulted to `[{}]` by the
source); `putExn` is `some msg` when the presigned PUT raises; `taskResp`
carries `data.task_id`; `pollEvents` drives the poll loop; `mdFetch` and
`zipFetch` are the result downloads, the latter giving the entry names of the archive. -/
structure RunEnv where
  pageCount : Except String Nat
  tmpDir : String := "/tmp/mkdtemp"
  slotResp : ApiOutcome (Option (List UploadSlotInfo)) := .exn "unused"
  putExn : Option String := none
  taskResp : ApiOutcome (Option String) := .exn "unused"
  pollEvents : List PollEvent := []
  mdFetch : Except String String := .error "unused"
  zipFetch : Except String (List String) := .error "unused"
deriving Repr, DecidableEq

/-- The second half of `_upload_file`: check that both URLs are truthy
(`if not presigned_url or not file_url`), then PUT the raw bytes to the
presigned URL with only a `Content-Type: application/pdf` header; a raised
`RequestException` is caught and yields `None`. -/
def uploadPut (env : RunEnv) (presigned file_url : Option String)
    (reqs : List HttpRequest) : Option String × List HttpRequest :=
  if optFalsy presigned || optFalsy file_url then (none, reqs)
  else
    let req2 : HttpRequest :=
      ⟨"PUT", presigned.getD "", [("Content-Type", "application/pdf")]⟩
    match env.putExn with
    | some _ => (none, reqs ++ [req2])
    | none => (file_url, reqs ++ [req2])

/-- Embeds `_upload_file`: POST to `UPLOAD_ENDPOINT` with `_get_headers`;
on exception or `code != 0` return `None`; read
`data.get("files", [{}])[0]` (an empty `files` list raises `IndexError`,
caught by the generic handler); then `uploadPut`. -/
def MinerUProcessor.uploadFile (p : MinerUProcessor) (env : RunEnv) :
    Option String × List HttpRequest :=
  let req1 : HttpRequest :=
    ⟨"POST", p.base_url ++ "/api/v4/file-urls/batch", getHeaders p⟩
  match env.slotResp with
  | .exn _ => (none, [req1])
  | .resp code _ files? =>
    if code ≠ 0 then (none, [req1])
    else
      match files? with
      | none => uploadPut env none none [req1]
      | some [] => (none, [req1])
      | some (info :: _) => uploadPut env info.presigned_url info.url [req1]

/-- Embeds `_create_task`: POST to `TASK_ENDPOINT` with `_get_headers`; on
exception or `code != 0` return `None`; otherwise return
`data.get("task_id")` as is (possibly `None`). -/
def MinerUProcessor.createTask (p : MinerUProcessor) (env : RunEnv) :
    Option String × List HttpRequest :=
  let req : HttpRequest :=
    ⟨"POST", p.base_url ++ "/api/v4/extract/task", getHeaders p⟩
  match env.taskResp with
  | .exn _ => (none, [req])
  | .resp code _ tid? => if code ≠ 0 then (none, [req]) else (tid?, [req])

/-- Embeds the endswith test of a string, computed on the underlying
character lists so that it reduces inside the kernel. -/
def strEndsWith (s suffix : String) : Bool :=
  suffix.data.isSuffixOf s.data

/-- Embeds the image-extension test: the lowered entry name ends with
one of .png, .jpg, .jpeg, .gif (character-wise ASCII lowering, as the
extensions are ASCII). -/
def isImageName (n : String) : Bool :=
  let l := String.mk (n.data.map Char.toLower)
  strEndsWith l ".png" || strEndsWith l ".jpg" ||
    strEndsWith l ".jpeg" || strEndsWith l ".gif"

/-- Embeds the name attribute of a path: the final path component of an
archive entry name, the characters after the last slash (archive image
entries never end in a slash, since they end in an image extension). -/
def basename (n : String) : String :=
  String.mk (n.data.reverse.takeWhile (fun c => ¬ c = '/')).reverse

/-- The archive-extraction loop of `_download_result`: for each entry name
matching an image extension, write `imgs_dir / Path(name).name` and record
its path; every other entry is skipped. -/
def extractImages (imgsDir : String) (names : List String) : List String :=
  (names.filter isImageName).map (fun n => imgsDir ++ "/" ++ basename n)

/-- Result of `_download_result`: markdown text, saved file paths, and the
requests issued. -/
structure DlResult where
  text : String
  saved : List String
  calls : List HttpRequest
deriving Repr, DecidableEq

/-- The `full_zip_url` half of `_download_result`: if truthy, GET the
archive (no custom headers) and extract image entries into `imgs/`; a raised
exception is caught by the function-level handler, which returns whatever
was accumulated so far. -/
def dlZipPhase (td : TaskData) (outputPath : String) (env : RunEnv)
    (mdText : String) (saved : List String) (reqs : List HttpRequest) : DlResult :=
  if optFalsy td.full_zip_url then ⟨mdText, saved, reqs⟩
  else
    let req : HttpRequest := ⟨"GET", td.full_zip_url.getD "", []⟩
    match env.zipFetch with
    | .error _ => ⟨mdText, saved, reqs ++ [req]⟩
    | .ok names =>
      ⟨mdText, saved ++ extractImages (outputPath ++ "/imgs") names, reqs ++ [req]⟩

/-- Embeds `_download_result`: if `md_url` is truthy, GET it (no custom
headers) and save `{arxiv_id|"document"}_mineru.md` under `output_path`,
recording the path; then handle the archive. An exception while fetching
the markdown is caught and returns the (empty) accumulated state. -/
def downloadResult (td : TaskData) (outputPath arxiv_id : String)
    (env : RunEnv) : DlResult :=
  if optFalsy td.md_url then dlZipPhase td outputPath env "" [] []
  else
    let req : HttpRequest := ⟨"GET", td.md_url.getD "", []⟩
    match env.mdFetch with
    | .error _ => ⟨"", [], [req]⟩
    | .ok text =>
      let base := if arxiv_id ≠ "unknown" then arxiv_id else "document"
      let mdPath := outputPath ++ "/" ++ base ++ "_mineru.md"
      dlZipPhase td outputPath env text [mdPath] [req]

/-- The status dictionary returned by `process_pdf`. Keys absent from a
given path (`error`, `images_count`, `task_id`) are `none`. -/
structure StatusInfo where
  error : Option String := none
  total_pages : Nat := 0
  processed_pages : Nat := 0
  is_oversized : Bool := false
  char_count : Nat := 0
  method : String := "mineru"
  images_count : Option Nat := none
  saved_files : List String := []
  task_id : Option String := none
deriving Repr, DecidableEq

/-- What one `process_pdf` call produces: the returned
`(text, status)` pair plus the list of HTTP requests issued. -/
structure ProcResult where
  text : Option String
  status : StatusInfo
  calls : List HttpRequest
deriving Repr, DecidableEq

/-- The placeholder substituted when no markdown text was retrieved. -/
def placeholderText (arxiv_id : String) : String :=
  "# OCR Analysis for " ++ arxiv_id ++
    "\n\nMinerU processing completed but no text content was extracted."

/-- The output directory: the caller-supplied path, else the fresh
temporary directory. -/
def outputDirOf (env : RunEnv) (outputPath : Option String) : String :=
  match outputPath with
  | some pth => pth
  | none => env.tmpDir

/-- Embeds `process_pdf`: credential check, page count (a raised exception
reaches the catch-all), oversize computation, then upload → create task →
poll → download, each failure returning `(None, status)` with the error
message of the source and the requests issued so far. -/
def MinerUProcessor.processPdf (p : MinerUProcessor) (env : RunEnv)
    (max_pages : Nat := 25) (outputPath : Option String := none)
    (arxiv_id : String := "unknown") : ProcResult :=
  if p.api_key = "" then
    ⟨none, { error := some "MINERU_API_KEY not configured" }, []⟩
  else
    match env.pageCount with
    | .error e =>
      ⟨none, { error := some ("MinerU processing error: " ++ e) }, []⟩
    | .ok total_pages =>
      let is_oversized : Bool := total_pages > max_pages
      let outputDir := outputDirOf env outputPath
      let up := p.uploadFile env
      if optFalsy up.1 then
        ⟨none, { error := some "Failed to upload file to MinerU",
                 total_pages := total_pages, is_oversized := is_oversized }, up.2⟩
      else
        let ct := p.createTask env
        if optFalsy ct.1 then
          ⟨none, { error := some "Failed to create MinerU task",
                   total_pages := total_pages, is_oversized := is_oversized },
           up.2 ++ ct.2⟩
        else
          let tid := ct.1.getD ""
          let pl := p.pollTask tid env.pollEvents
          let pollCalls := pl.2.map Prod.snd
          match pl.1 with
          | none =>
            ⟨none, { error := some "MinerU task failed or timed out",
                     total_pages := total_pages, is_oversized := is_oversized },
             up.2 ++ ct.2 ++ pollCalls⟩
          | some td =>
            let dl := downloadResult td outputDir arxiv_id env
            let text := if dl.text = "" then placeholderText arxiv_id else dl.text
            let images_count :=
              (dl.saved.filter (fun f => ¬ strEndsWith f ".md")).length
            ⟨some text,
             { total_pages := total_pages, processed_pages := total_pages,
               is_oversized := is_oversized, char_count := text.length,
               images_count := some images_count, saved_files := dl.saved,
               task_id := some tid },
             up.2 ++ ct.2 ++ pollCalls ++ dl.calls⟩

/-- The module-level singleton accessor `get_mineru_processor`, with the
global `_mineru_processor` cell made explicit state and a counter of how
many times the constructor ran. -/
def getMineruProcessor (sys : SysEnv) :
    Option MinerUProcessor × Nat → MinerUProcessor × (Option MinerUProcessor × Nat)
  | (none, k) =>
    let p := MinerUProcessor.init sys
    (p, (some p, k + 1))
  | (some p, k) => (p, (some p, k))

/-- Runs `n` successive calls to `get_mineru_processor`, collecting the returned
instances and threading the global state. -/
def callN (sys : SysEnv) : Nat → Option MinerUProcessor × Nat →
    List MinerUProcessor × (Option MinerUProcessor × Nat)
  | 0, st => ([], st)
  | n + 1, st =>
    let r := getMineruProcessor sys st
    let rest := callN sys n r.2
    (r.1 :: rest.1, rest.2)

/-- A shared concrete processor configuration used by witnesses:
key `"k"`, default base URL, 20 s timeout, 5 s poll interval. -/
def procK : MinerUProcessor := ⟨"k", "https://mineru.net", 20, 5⟩

/-- C2: the polling loop is bounded by a wall-clock timeout measured from
its start: if every observed poll outcome is non-terminal (never `done` nor
`failed`), the loop returns the timeout result once elapsed time reaches
the configured timeout, and every poll HTTP request is started strictly
before the timeout has been exceeded. (`exhausted` only flags that the
supplied event trace was too short to decide the run.) -/
theorem pollTask_timeoutBound (p : MinerUProcessor) (task_id : String)
    (elapsed : Nat) (events : List PollEvent)
    (hnon : ∀ e ∈ events, nonTerminalEvent e = true)
    (hne : (pollTaskGo p task_id elapsed events).1 ≠ PollResult.exhausted) :
    (pollTaskGo p task_id elapsed events).1 = PollResult.timeout ∧
      ∀ tr ∈ (pollTaskGo p task_id elapsed events).2, tr.1 < p.timeout := by
  induction events generalizing elapsed with
  | nil =>
    by_cases hlt : elapsed < p.timeout
    · simp [pollTaskGo, hlt] at hne
    · simp [pollTaskGo, hlt]
  | cons e rest ih =>
    have hn := hnon e (List.mem_cons_self e rest)
    by_cases hlt : elapsed < p.timeout
    · rcases he : e.resp with m | ⟨code, m, d⟩
      · simp only [pollTaskGo, he, if_pos hlt] at hne ⊢
        have hrec := ih (elapsed + e.dur + p.poll_interval)
          (fun x hx => hnon x (List.mem_cons_of_mem _ hx)) hne
        refine ⟨hrec.1, ?_⟩
        intro tr htr
        rcases List.mem_cons.mp htr with h | h
        · rw [h]; exact hlt
        · exact hrec.2 tr h
      · simp only [nonTerminalEvent, he, Bool.and_eq_true, beq_iff_eq,
          decide_eq_true_eq] at hn
        obtain ⟨⟨hc, hd1⟩, hd2⟩ := hn
        subst hc
        simp only [pollTaskGo, he, if_pos hlt, ne_eq, not_true_eq_false,
          if_neg hd1, if_neg hd2, reduceIte] at hne ⊢
        have hrec := ih (elapsed + e.dur + p.poll_interval)
          (fun x hx => hnon x (List.mem_cons_of_mem _ hx)) hne
        refine ⟨hrec.1, ?_⟩
        intro tr htr
        rcases List.mem_cons.mp htr with h | h
        · rw [h]; exact hlt
        · exact hrec.2 tr h
    · simp [pollTaskGo, hlt]

/-- C2 witness: with timeout 20 and interval 5, four in-progress replies
drive the clock to 20 and the loop times out; every request started before
the timeout. -/
theorem pollTask_timeoutBound_witness :
    (pollTaskGo procK "t1" 0
        [⟨0, .netError "conn"⟩, ⟨0, .reply 0 "" { state := some "running" }⟩,
         ⟨0, .reply 0 "" { state := some "pending" }⟩, ⟨0, .netError "conn"⟩]).1
      = PollResult.timeout ∧
    ∀ tr ∈ (pollTaskGo procK "t1" 0
        [⟨0, .netError "conn"⟩, ⟨0, .reply 0 "" { state := some "running" }⟩,
         ⟨0, .reply 0 "" { state := some "pending" }⟩, ⟨0, .netError "conn"⟩]).2,
      tr.1 < procK.timeout :=
  pollTask_timeoutBound procK "t1" 0 _ (by decide) (by decide)

/-- C3: a transient network error on one poll attempt does not abort the
loop: the loop sleeps the fixed poll interval and retries, and when the
next attempt (still within the timeout) replies `done`, the loop returns
that payload; the two requests are issued exactly one request duration plus
one poll interval apart. -/
theorem pollTask_transientRetry (p : MinerUProcessor) (task_id m m2 : String)
    (elapsed dur dur2 : Nat) (d : TaskData) (rest : List PollEvent)
    (h1 : elapsed < p.timeout)
    (h2 : elapsed + dur + p.poll_interval < p.timeout)
    (hd : d.state = some "done") :
    pollTaskGo p task_id elapsed
        (⟨dur, .netError m⟩ :: ⟨dur2, .reply 0 m2 d⟩ :: rest) =
      (PollResult.success d,
       [(elapsed, pollRequest p task_id),
        (elapsed + dur + p.poll_interval, pollRequest p task_id)]) := by
  simp [pollTaskGo, h1, h2, hd]

/-- C3 witness: a network error at time 0 followed by a `done` reply at
time 6 (within the 20 s timeout) yields the `done` payload. -/
theorem pollTask_transientRetry_witness :
    pollTaskGo procK "t1" 0
        [⟨1, .netError "conn"⟩, ⟨1, .reply 0 "" { state := some "done" }⟩] =
      (PollResult.success { state := some "done" },
       [(0, pollRequest procK "t1"), (6, pollRequest procK "t1")]) :=
  pollTask_transientRetry procK "t1" "conn" "" 0 1 1 _ [] (by decide) (by decide) rfl

/-- C4: with no API credential configured, `process_pdf` short-circuits:
it returns `(None, status)` with the error set and every other status field
at its zero default, and issues no HTTP request at all. -/
theorem processPdf_missingCredential (p : MinerUProcessor) (env : RunEnv)
    (max_pages : Nat) (outputPath : Option String) (arxiv_id : String)
    (h : p.api_key = "") :
    p.processPdf env max_pages outputPath arxiv_id =
      ⟨none, { error := some "MINERU_API_KEY not configured" }, []⟩ := by
  simp [MinerUProcessor.processPdf, h]

/-- C4 witness: a processor with an empty key, given an environment in
which every network interaction would succeed, still returns the
credential error and makes no call. -/
theorem processPdf_missingCredential_witness :
    MinerUProcessor.processPdf ⟨"", "https://mineru.net", 20, 5⟩
        { pageCount := .ok 30,
          slotResp := .resp 0 "" (some [{ presigned_url := some "https://s3/put",
                                          url := some "https://s3/file" }]),
          taskResp := .resp 0 "" (some "t1"),
          pollEvents := [⟨1, .reply 0 "" { state := some "done" }⟩] }
        25 none "unknown" =
      ⟨none, { error := some "MINERU_API_KEY not configured" }, []⟩ :=
  processPdf_missingCredential _ _ _ _ _ rfl

/-- The accessor `get_mineru_processor` leaves a populated cache untouched: starting
from a cached instance, `n` calls all return it and never construct. -/
theorem callN_cached (sys : SysEnv) (n : Nat) (p : MinerUProcessor) (k : Nat) :
    callN sys n (some p, k) = (List.replicate n p, (some p, k)) := by
  induction n with
  | zero => simp [callN]
  | succ n ih => simp [callN, getMineruProcessor, ih, List.replicate_succ]

/-- C10: `get_mineru_processor` constructs at most once per process: after
any positive number of calls starting from the empty cache, the constructor
has run exactly once, the cache holds the constructed instance, and every
call returned that same instance. -/
theorem getMineruProcessor_singleton (sys : SysEnv) (n : Nat) (hn : 1 ≤ n) :
    (callN sys n (none, 0)).2.2 = 1 ∧
    (callN sys n (none, 0)).2.1 = some (MinerUProcessor.init sys) ∧
    ∀ r ∈ (callN sys n (none, 0)).1, r = MinerUProcessor.init sys := by
  obtain ⟨m, rfl⟩ : ∃ m, n = m + 1 := ⟨n - 1, (Nat.succ_pred_eq_of_pos hn).symm⟩
  have hC : callN sys (m + 1) (none, 0) =
      (MinerUProcessor.init sys :: List.replicate m (MinerUProcessor.init sys),
       (some (MinerUProcessor.init sys), 1)) := by
    simp [callN, getMineruProcessor, callN_cached]
  rw [hC]
  refine ⟨rfl, rfl, ?_⟩
  intro r hr
  rcases List.mem_cons.mp hr with h | h
  · exact h
  · exact List.eq_of_mem_replicate h

/-- C10 witness: three calls from the empty cache construct once and all
return the same instance. -/
theorem getMineruProcessor_singleton_witness :
    (callN ⟨"ek", 600, 5⟩ 3 (none, 0)).2.2 = 1 ∧
    (callN ⟨"ek", 600, 5⟩ 3 (none, 0)).2.1 = some (MinerUProcessor.init ⟨"ek", 600, 5⟩) ∧
    ∀ r ∈ (callN ⟨"ek", 600, 5⟩ 3 (none, 0)).1, r = MinerUProcessor.init ⟨"ek", 600, 5⟩ :=
  getMineruProcessor_singleton ⟨"ek", 600, 5⟩ 3 (by decide)


/-- Task data and environment for the C5 witness: no markdown URL, an
archive with two image entries and one text entry. -/
def tdC5 : TaskData := { full_zip_url := some "https://r/zip" }

def envC5 : RunEnv :=
  { pageCount := .ok 1, zipFetch := .ok ["fig1.PNG", "fig2.jpg", "notes.txt"] }

/-- C5: for every archive fetched by `_download_result`, exactly the
entries whose names end in `.png`/`.jpg`/`.jpeg`/`.gif` (case-insensitive)
are saved under the `imgs` subdirectory and recorded in `saved_files`
(every non-image entry is ignored): the saved list is the markdown part
(empty, or the single markdown file) followed by precisely the filtered
image entries mapped into `imgs/`. -/
theorem downloadResult_imageEntries (td : TaskData) (outputPath arxiv_id zu : String)
    (env : RunEnv) (names : List String)
    (hz : td.full_zip_url = some zu) (hzt : ¬ zu = "")
    (hfetch : env.zipFetch = .ok names)
    (hmd : optFalsy td.md_url = true ∨ ∃ t, env.mdFetch = .ok t) :
    ∃ pre,
      (downloadResult td outputPath arxiv_id env).saved =
        pre ++ (names.filter isImageName).map
          (fun n => outputPath ++ "/imgs" ++ "/" ++ basename n) ∧
      (pre = [] ∨ ∃ b, pre = [outputPath ++ "/" ++ b ++ "_mineru.md"]) := by
  have hzf : optFalsy (some zu) = false := by simp [optFalsy, hzt]
  rcases hmd with hmd | ⟨t, hmd⟩
  · refine ⟨[], ?_, Or.inl rfl⟩
    simp [downloadResult, hmd, dlZipPhase, hz, hzf, hfetch, extractImages]
  · rcases hmu : optFalsy td.md_url with _ | _
    · refine ⟨[outputPath ++ "/" ++
        (if arxiv_id = "unknown" then "document" else arxiv_id) ++ "_mineru.md"],
        ?_, Or.inr ⟨_, rfl⟩⟩
      simp [downloadResult, hmu, hmd, dlZipPhase, hz, hzf, hfetch, extractImages]
    · refine ⟨[], ?_, Or.inl rfl⟩
      simp [downloadResult, hmu, dlZipPhase, hz, hzf, hfetch, extractImages]

/-- C5 witness: the archive `fig1.PNG`, `fig2.jpg`, `notes.txt` (with no
markdown URL) yields exactly the two image files under `imgs/`. -/
theorem downloadResult_imageEntries_witness :
    ∃ pre,
      (downloadResult tdC5 "out" "unknown" envC5).saved =
        pre ++ ((["fig1.PNG", "fig2.jpg", "notes.txt"].filter isImageName).map
          (fun n => "out" ++ "/imgs" ++ "/" ++ basename n)) ∧
      (pre = [] ∨ ∃ b, pre = ["out" ++ "/" ++ b ++ "_mineru.md"]) :=
  downloadResult_imageEntries tdC5 "out" "unknown" "https://r/zip" envC5
    ["fig1.PNG", "fig2.jpg", "notes.txt"] rfl (by decide) rfl (Or.inl rfl)

/-- Task data and environment for the C8 theorems: both result URLs
present; the counterexample archive holds one entry with a directory
component, the witness archive three mixed entries. -/
def tdC8 : TaskData :=
  { md_url := some "https://r/md", full_zip_url := some "https://r/zip" }

def envC8cex : RunEnv :=
  { pageCount := .ok 1, mdFetch := .ok "text", zipFetch := .ok ["sub/fig.png"] }

def envC8 : RunEnv :=
  { pageCount := .ok 1, mdFetch := .ok "text",
    zipFetch := .ok ["images/a.png", "b.GIF", "notes.txt"] }

/-- C8 counterexample: an archive entry with a directory component,
`sub/fig.png`, is saved at `imgs/fig.png` (the base name of the entry), not at
`imgs/sub/fig.png` as the reading of the claim requires. -/
theorem downloadResult_entryName_cex :
    (downloadResult tdC8 "out" "2401.12345" envC8cex).saved =
      ["out/2401.12345_mineru.md", "out/imgs/fig.png"] ∧
    "out/imgs/sub/fig.png" ∉ (downloadResult tdC8 "out" "2401.12345" envC8cex).saved := by
  constructor
  · decide
  · decide

/-- C8 (amended): on a fully successful download the artifacts are the
markdown file `{arxiv_id|"document"}_mineru.md` in the resolved output
directory and, for each extracted image entry, `imgs/<base name>` where
the base name is the final path component of the name of the archive entry. -/
theorem downloadResult_artifactPaths (td : TaskData)
    (outputPath arxiv_id mu zu mdText : String) (env : RunEnv) (names : List String)
    (hmu : td.md_url = some mu) (hmut : ¬ mu = "")
    (hfmd : env.mdFetch = .ok mdText)
    (hzu : td.full_zip_url = some zu) (hzut : ¬ zu = "")
    (hfzip : env.zipFetch = .ok names) :
    (downloadResult td outputPath arxiv_id env).saved =
      (outputPath ++ "/" ++ (if arxiv_id ≠ "unknown" then arxiv_id else "document")
          ++ "_mineru.md")
        :: (names.filter isImageName).map
             (fun n => outputPath ++ "/imgs" ++ "/" ++ basename n) := by
  have hmuF : optFalsy (some mu) = false := by simp [optFalsy, hmut]
  have hzuF : optFalsy (some zu) = false := by simp [optFalsy, hzut]
  simp [downloadResult, hmu, hmuF, hfmd, dlZipPhase, hzu, hzuF, hfzip, extractImages]

/-- C8 witness: a run with id `2401.12345` and entries
`images/a.png`, `b.GIF`, `notes.txt` produces the markdown file and the
two base-named image paths. -/
theorem downloadResult_artifactPaths_witness :
    (downloadResult tdC8 "out" "2401.12345" envC8).saved =
      ("out" ++ "/" ++ (if "2401.12345" ≠ "unknown" then "2401.12345" else "document")
          ++ "_mineru.md")
        :: ((["images/a.png", "b.GIF", "notes.txt"].filter isImageName).map
             (fun n => "out" ++ "/imgs" ++ "/" ++ basename n)) :=
  downloadResult_artifactPaths tdC8 "out" "2401.12345" "https://r/md" "https://r/zip"
    "text" envC8 ["images/a.png", "b.GIF", "notes.txt"]
    rfl (by decide) rfl rfl (by decide) rfl

/-- Environment for the C1 counterexample and witness: the page count
succeeds with 30 pages, then the upload-slot request raises. -/
def envC1 : RunEnv := { pageCount := .ok 30, slotResp := .exn "connection reset" }

/-- C1 counterexample: on the upload-failure path with a 30-page PDF and
`max_pages = 25`, the error status carries `total_pages = 30` and
`is_oversized = True`, not the zeroed values the claim requires for every
error path. -/
theorem processPdf_errorZeroed_cex :
    (procK.processPdf envC1 25 none "unknown").status.error.isSome = true ∧
    (procK.processPdf envC1 25 none "unknown").status.total_pages = 30 ∧
    (procK.processPdf envC1 25 none "unknown").status.is_oversized = true := by
  refine ⟨?_, ?_, ?_⟩ <;> decide

/-- C1 (amended): on every call exactly one of text / error is populated,
and every error return is `(None, status)` with `processed_pages`,
`char_count` zero and `saved_files` empty; `total_pages` and `is_oversized`
are zeroed only on the missing-credential and catch-all paths, while the
upload / task-creation / poll failure paths carry the computed page count
and oversize flag. -/
theorem processPdf_errorShape (p : MinerUProcessor) (env : RunEnv)
    (max_pages : Nat) (outputPath : Option String) (arxiv_id : String) :
    ((p.processPdf env max_pages outputPath arxiv_id).text = none ↔
      (p.processPdf env max_pages outputPath arxiv_id).status.error.isSome = true) ∧
    ((p.processPdf env max_pages outputPath arxiv_id).status.error.isSome = true →
      (p.processPdf env max_pages outputPath arxiv_id).status.processed_pages = 0 ∧
      (p.processPdf env max_pages outputPath arxiv_id).status.char_count = 0 ∧
      (p.processPdf env max_pages outputPath arxiv_id).status.saved_files = []) := by
  unfold MinerUProcessor.processPdf
  by_cases hkey : p.api_key = ""
  · simp [hkey]
  · simp only [if_neg hkey]
    rcases hpc : env.pageCount with e | tp
    · simp
    · rcases h1 : optFalsy (p.uploadFile env).1
      · rcases h2 : optFalsy (p.createTask env).1
        · rcases h3 : (p.pollTask ((p.createTask env).1.getD "") env.pollEvents).1
          · simp [h1, h2, h3]
          · simp [h1, h2, h3]
        · simp [h1, h2]
      · simp [h1]

/-- C1 witness: the upload-failure run satisfies the error-side shape. -/
theorem processPdf_errorShape_witness :
    (procK.processPdf envC1 25 none "unknown").status.processed_pages = 0 ∧
    (procK.processPdf envC1 25 none "unknown").status.char_count = 0 ∧
    (procK.processPdf envC1 25 none "unknown").status.saved_files = [] :=
  (processPdf_errorShape procK envC1 25 none "unknown").2 (by decide)

/-- The placeholder is never the empty string. -/
theorem placeholderText_length_pos (a : String) : 0 < (placeholderText a).length := by
  have h1 : ("# OCR Analysis for " : String).length = 19 := rfl
  have h : (placeholderText a).length =
      19 + a.length +
        ("\n\nMinerU processing completed but no text content was extracted." : String).length := by
    simp [placeholderText, String.length_append, h1]
  omega

/-- Environment for the C6 witness: upload, task creation and polling all
succeed, but the result payload carries neither markdown nor archive URL. -/
def envC6 : RunEnv :=
  { pageCount := .ok 3,
    slotResp := .resp 0 "" (some [{ presigned_url := some "https://s3/put",
                                    url := some "https://s3/file" }]),
    taskResp := .resp 0 "" (some "t1"),
    pollEvents := [⟨1, .reply 0 "" { state := some "done" }⟩] }

/-- C6: on a successful call in which no markdown text was retrieved, the
returned text is the fixed placeholder noting that processing completed
without extractable text — neither `None` nor the empty string. -/
theorem processPdf_placeholder (p : MinerUProcessor) (env : RunEnv)
    (max_pages : Nat) (outputPath : Option String) (arxiv_id : String)
    (d : TaskData) (tp : Nat)
    (hkey : ¬ p.api_key = "")
    (hpc : env.pageCount = .ok tp)
    (hup : optFalsy (p.uploadFile env).1 = false)
    (hct : optFalsy (p.createTask env).1 = false)
    (hpoll : (p.pollTask ((p.createTask env).1.getD "") env.pollEvents).1 = some d)
    (hmd : (downloadResult d (outputDirOf env outputPath) arxiv_id env).text = "") :
    (p.processPdf env max_pages outputPath arxiv_id).text =
      some (placeholderText arxiv_id) ∧
    0 < (placeholderText arxiv_id).length := by
  refine ⟨?_, placeholderText_length_pos arxiv_id⟩
  simp [MinerUProcessor.processPdf, hkey, hpc, hup, hct, hpoll, hmd]

/-- C6 witness: the successful three-page run with an empty result payload
returns exactly the placeholder for its document id. -/
theorem processPdf_placeholder_witness :
    (procK.processPdf envC6 25 (some "out") "2401.1").text =
      some (placeholderText "2401.1") ∧
    0 < (placeholderText "2401.1").length :=
  processPdf_placeholder procK envC6 25 (some "out") "2401.1"
    { state := some "done" } 3 (by decide) rfl (by decide) (by decide)
    (by decide) (by decide)

/-- Environment for the C9 witness: a 30-page PDF whose workflow succeeds
end to end. -/
def envC9 : RunEnv :=
  { pageCount := .ok 30,
    slotResp := .resp 0 "" (some [{ presigned_url := some "https://s3/put",
                                    url := some "https://s3/file" }]),
    taskResp := .resp 0 "" (some "t1"),
    pollEvents := [⟨1, .reply 0 "" { state := some "done", md_url := some "https://r/md" }⟩],
    mdFetch := .ok "hello" }

/-- C9: whenever the page count is read successfully, the status field
`is_oversized` equals `total_pages > max_pages`, and the oversize
condition blocks nothing: the returned text and the issued requests are
identical under any other `max_pages`. -/
theorem processPdf_oversized (p : MinerUProcessor) (env : RunEnv)
    (m1 m2 tp : Nat) (outputPath : Option String) (arxiv_id : String)
    (hkey : ¬ p.api_key = "") (hpc : env.pageCount = .ok tp) :
    (p.processPdf env m1 outputPath arxiv_id).status.is_oversized = decide (tp > m1) ∧
    (p.processPdf env m1 outputPath arxiv_id).text =
      (p.processPdf env m2 outputPath arxiv_id).text ∧
    (p.processPdf env m1 outputPath arxiv_id).calls =
      (p.processPdf env m2 outputPath arxiv_id).calls := by
  unfold MinerUProcessor.processPdf
  simp only [hpc, if_neg hkey]
  rcases h1 : optFalsy (p.uploadFile env).1
  · rcases h2 : optFalsy (p.createTask env).1
    · rcases h3 : (p.pollTask ((p.createTask env).1.getD "") env.pollEvents).1
      · simp [h1, h2, h3]
      · simp [h1, h2, h3]
    · simp [h1, h2]
  · simp [h1]

/-- C9 witness: the 30-page run has `is_oversized = True` under
`max_pages = 25` and `False` under `max_pages = 30`, with identical text
both times. -/
theorem processPdf_oversized_witness :
    (procK.processPdf envC9 25 none "unknown").status.is_oversized = true ∧
    (procK.processPdf envC9 30 none "unknown").status.is_oversized = false ∧
    (procK.processPdf envC9 25 none "unknown").text =
      (procK.processPdf envC9 30 none "unknown").text := by
  refine ⟨?_, ?_, ?_⟩
  · exact ((processPdf_oversized procK envC9 25 30 30 none "unknown"
      (by decide) rfl).1).trans (by decide)
  · exact ((processPdf_oversized procK envC9 30 25 30 none "unknown"
      (by decide) rfl).1).trans (by decide)
  · exact (processPdf_oversized procK envC9 25 30 30 none "unknown"
      (by decide) rfl).2.1

/-- The upload-slot request: POST to the batch file-URL endpoint with the
JSON-API headers from `_get_headers`. -/
def slotRequest (p : MinerUProcessor) : HttpRequest :=
  ⟨"POST", p.base_url ++ "/api/v4/file-urls/batch", getHeaders p⟩

/-- The task-creation request: POST to the extract-task endpoint with the
JSON-API headers from `_get_headers`. -/
def taskRequest (p : MinerUProcessor) : HttpRequest :=
  ⟨"POST", p.base_url ++ "/api/v4/extract/task", getHeaders p⟩

/-- The raw-bytes upload: PUT to a presigned URL carrying only
a Content-Type of application/pdf. -/
def putRequest (u : String) : HttpRequest :=
  ⟨"PUT", u, [("Content-Type", "application/pdf")]⟩

/-- A result download: GET with no custom headers. -/
def dlRequest (u : String) : HttpRequest :=
  ⟨"GET", u, []⟩

/-- The requests issued by `_upload_file` are exactly the upload-slot POST,
optionally followed by the raw PUT to some presigned URL. -/
theorem uploadFile_calls (p : MinerUProcessor) (env : RunEnv) :
    (p.uploadFile env).2 = [slotRequest p] ∨
      ∃ u, (p.uploadFile env).2 = [slotRequest p, putRequest u] := by
  unfold MinerUProcessor.uploadFile uploadPut
  repeat' split
  all_goals first
    | exact Or.inl rfl
    | exact Or.inr ⟨_, rfl⟩

/-- The requests issued by `_create_task` are exactly the task-creation
POST. -/
theorem createTask_calls (p : MinerUProcessor) (env : RunEnv) :
    (p.createTask env).2 = [taskRequest p] := by
  unfold MinerUProcessor.createTask
  repeat' split
  all_goals rfl

/-- Every request issued by the poll loop is the poll GET request. -/
theorem pollTaskGo_requestShape (p : MinerUProcessor) (task_id : String)
    (elapsed : Nat) (events : List PollEvent) :
    ∀ tr ∈ (pollTaskGo p task_id elapsed events).2, tr.2 = pollRequest p task_id := by
  induction events generalizing elapsed with
  | nil =>
    intro tr htr
    by_cases hlt : elapsed < p.timeout <;> simp [pollTaskGo, hlt] at htr
  | cons e rest ih =>
    intro tr htr
    by_cases hlt : elapsed < p.timeout
    · rcases he : e.resp with m | ⟨code, m, d⟩
      · simp only [pollTaskGo, he, if_pos hlt] at htr
        rcases List.mem_cons.mp htr with h | h
        · rw [h]
        · exact ih _ tr h
      · simp only [pollTaskGo, he, if_pos hlt] at htr
        split at htr
        · simp at htr; rw [htr]
        · split at htr
          · simp at htr; rw [htr]
          · split at htr
            · simp at htr; rw [htr]
            · rcases List.mem_cons.mp htr with h | h
              · rw [h]
              · exact ih _ tr h
    · simp [pollTaskGo, hlt] at htr

/-- Every request issued by `_poll_task` is the poll GET of its task id,
which carries the JSON-API headers. -/
theorem pollTask_calls (p : MinerUProcessor) (task_id : String)
    (events : List PollEvent) :
    ∀ r ∈ ((p.pollTask task_id events).2.map Prod.snd), r = pollRequest p task_id := by
  intro r hr
  rcases List.mem_map.mp hr with ⟨tr, htr, hr2⟩
  have hshape : tr.2 = pollRequest p task_id := by
    refine pollTaskGo_requestShape p task_id 0 events tr ?_
    simpa [MinerUProcessor.pollTask] using htr
  rw [← hr2, hshape]

/-- The requests issued by `_download_result` are exactly bare GETs of some
list of result URLs, with no custom headers. -/
theorem downloadResult_callUrls (td : TaskData) (outputPath arxiv_id : String)
    (env : RunEnv) :
    ∃ urls : List String,
      (downloadResult td outputPath arxiv_id env).calls = List.map dlRequest urls := by
  unfold downloadResult dlZipPhase
  repeat' split
  all_goals first
    | exact ⟨[], rfl⟩
    | exact ⟨[_], rfl⟩
    | exact ⟨[_, _], rfl⟩

/-- C7 (amended): in every run, the issued requests decompose into the
upload-slot POST, an optional raw-bytes PUT to a presigned URL, the
task-creation POST, the status-poll GETs for one task id, and the result
downloads, in this order — where each request to an API endpoint
(`slotRequest`, `taskRequest`, `pollRequest`) carries exactly the
`_get_headers` set containing `Authorization: Bearer {apiKey}`, the raw PUT
carries only a Content-Type of application/pdf (no Authorization), and the
result downloads carry no custom headers at all. -/
theorem processPdf_requestHeaders (p : MinerUProcessor) (env : RunEnv)
    (max_pages : Nat) (outputPath : Option String) (arxiv_id : String) :
    (∃ (slotPart putPart taskPart pollPart dlPart : List HttpRequest) (task_id : String),
      (p.processPdf env max_pages outputPath arxiv_id).calls =
        slotPart ++ putPart ++ taskPart ++ pollPart ++ dlPart ∧
      (slotPart = [] ∨ slotPart = [slotRequest p]) ∧
      (putPart = [] ∨ ∃ u, putPart = [putRequest u]) ∧
      (taskPart = [] ∨ taskPart = [taskRequest p]) ∧
      (∀ r ∈ pollPart, r = pollRequest p task_id) ∧
      (∃ urls : List String, dlPart = List.map dlRequest urls)) ∧
    ("Authorization", "Bearer " ++ p.api_key) ∈ getHeaders p ∧
    (slotRequest p).headers = getHeaders p ∧
    (taskRequest p).headers = getHeaders p ∧
    (∀ t, (pollRequest p t).headers = getHeaders p) ∧
    (∀ u, (putRequest u).headers = [("Content-Type", "application/pdf")]) ∧
    (∀ u, (dlRequest u).headers = []) := by
  refine ⟨?_, by simp [getHeaders], rfl, rfl, fun t => rfl, fun u => rfl, fun u => rfl⟩
  unfold MinerUProcessor.processPdf
  by_cases hkey : p.api_key = ""
  · exact ⟨[], [], [], [], [], "", by simp [hkey], Or.inl rfl, Or.inl rfl, Or.inl rfl,
      by simp, ⟨[], rfl⟩⟩
  · simp only [if_neg hkey]
    rcases hpc : env.pageCount with e | tp
    · exact ⟨[], [], [], [], [], "", by simp, Or.inl rfl, Or.inl rfl, Or.inl rfl,
        by simp, ⟨[], rfl⟩⟩
    · obtain ⟨putPart0, hu, hput0⟩ :
          ∃ putPart0, (p.uploadFile env).2 = [slotRequest p] ++ putPart0 ∧
            (putPart0 = [] ∨ ∃ u, putPart0 = [putRequest u]) := by
        rcases uploadFile_calls p env with hu | ⟨u, hu⟩
        · exact ⟨[], by simp [hu], Or.inl rfl⟩
        · exact ⟨[putRequest u], by simp [hu], Or.inr ⟨u, rfl⟩⟩
      rcases h1 : optFalsy (p.uploadFile env).1
      · rcases h2 : optFalsy (p.createTask env).1
        · rcases h3 : (p.pollTask ((p.createTask env).1.getD "") env.pollEvents).1 with _ | td
          · exact ⟨[slotRequest p], putPart0, [taskRequest p],
              ((p.pollTask ((p.createTask env).1.getD "") env.pollEvents).2.map Prod.snd),
              [], (p.createTask env).1.getD "",
              by simp [h1, h2, h3, hu, createTask_calls, List.append_assoc],
              Or.inr rfl, hput0, Or.inr rfl,
              pollTask_calls p ((p.createTask env).1.getD "") env.pollEvents, ⟨[], rfl⟩⟩
          · obtain ⟨urls, hdl⟩ :=
              downloadResult_callUrls td (outputDirOf env outputPath) arxiv_id env
            exact ⟨[slotRequest p], putPart0, [taskRequest p],
              ((p.pollTask ((p.createTask env).1.getD "") env.pollEvents).2.map Prod.snd),
              (downloadResult td (outputDirOf env outputPath) arxiv_id env).calls,
              (p.createTask env).1.getD "",
              by simp [h1, h2, h3, hu, createTask_calls, List.append_assoc],
              Or.inr rfl, hput0, Or.inr rfl,
              pollTask_calls p ((p.createTask env).1.getD "") env.pollEvents, ⟨urls, hdl⟩⟩
        · exact ⟨[slotRequest p], putPart0, [taskRequest p], [], [], "",
            by simp [h1, h2, hu, createTask_calls, List.append_assoc],
            Or.inr rfl, hput0, Or.inr rfl, by simp, ⟨[], rfl⟩⟩
      · exact ⟨[slotRequest p], putPart0, [], [], [], "",
          by simp [h1, hu, List.append_assoc],
          Or.inr rfl, hput0, Or.inl rfl, by simp, ⟨[], rfl⟩⟩

/-- Environment for the C7 counterexample: the upload slot succeeds, so the
raw PUT to the presigned URL is issued; the task request then fails. -/
def envC7 : RunEnv :=
  { pageCount := .ok 3,
    slotResp := .resp 0 "" (some [{ presigned_url := some "https://s3/put",
                                    url := some "https://s3/file" }]),
    taskResp := .exn "later" }

/-- C7 counterexample: in a run that reaches the raw-bytes PUT, that PUT
request does not carry the `Authorization: Bearer {apiKey}` header. -/
theorem processPdf_bearerOnPut_cex :
    ((procK.processPdf envC7 25 (some "out") "x").calls.any
      (fun r => r.method == "PUT" &&
        !(r.headers.contains ("Authorization", "Bearer " ++ procK.api_key)))) = true := by
  decide
